import Mathlib

set_option maxHeartbeats 1000000

/-!
Shallow embedding of the `fgo-api` repository (src/app/scraper.py and
src/app/main.py) and proofs about it.

The scraper fetches one wiki page, finds the `wikitable sortable` tables,
and turns their rows into servant records.  We embed the parsed HTML a row
works on as the data the code actually inspects: for each cell, the
`data-sort-value` attribute (if present), the number of `<img>` descendants,
the stripped text of the first `<a>` descendant (if present, possibly the
empty string), and the cell's own stripped text.
-/

/-- A servant record, as built by `FGOScraper.get_basic_servant_data`
(the dict `{'id': ..., 'name': ..., 'class': ..., 'rarity': ...}`).
`cls` embeds the `'class'` key (`class` is a Lean keyword). -/
structure ServantRecord where
  id : Int
  name : String
  cls : String
  rarity : Int
deriving DecidableEq, Repr

/-- One table cell (`td`/`th`), reduced to the features the scraper reads:
`dataSortValue` is the `data-sort-value` attribute when present;
`imgCount` is `len(cell.find_all('img'))`;
`anchorText` is `a.get_text(strip=True)` of the first `<a>` descendant when
one exists (BeautifulSoup tags are truthy even when their text is empty, so
an empty anchor is `some ""`); `text` is `cell.get_text(strip=True)`. -/
structure Cell where
  dataSortValue : Option String
  imgCount : Nat
  anchorText : Option String
  text : String
deriving DecidableEq, Repr

/-- A table row: the list of its `td`/`th` cells, in document order. -/
structure Row where
  cells : List Cell
deriving DecidableEq, Repr

/-- A `wikitable sortable` table: its `tr` rows in document order
(the first one is the header row the code skips). -/
structure Table where
  rows : List Row
deriving DecidableEq, Repr

/-- Value of an ASCII decimal digit, `none` for any other character. -/
def digitVal (c : Char) : Option Nat :=
  if '0' ≤ c ∧ c ≤ '9' then some (c.toNat - 48) else none

/-- Consume a whole character list as decimal digits, most significant
first, accumulating the value; fails on the first non-digit. -/
def parseDigitsAcc : Nat → List Char → Option Nat
  | acc, [] => some acc
  | acc, c :: cs =>
    match digitVal c with
    | some d => parseDigitsAcc (acc * 10 + d) cs
    | none => none

/-- Embedding of Python's `int(s)` on a string: surrounding whitespace is
stripped, an optional sign is allowed, and the rest must be one or more
decimal digits.  (Python also accepts underscores between digits and
non-ASCII digits; the program's sort values never use those.)
`none` models the `ValueError` that `int` raises otherwise. -/
def pythonInt (s : String) : Option Int :=
  let cs := ((s.toList.dropWhile Char.isWhitespace).reverse.dropWhile
      Char.isWhitespace).reverse
  match cs with
  | '-' :: rest =>
    if rest = [] then none else (parseDigitsAcc 0 rest).map (fun n => -(n : Int))
  | '+' :: rest =>
    if rest = [] then none else (parseDigitsAcc 0 rest).map (fun n => (n : Int))
  | rest =>
    if rest = [] then none else (parseDigitsAcc 0 rest).map (fun n => (n : Int))

/-- Rarity of the first column, mirroring scraper.py lines 50-55:
`int(cell['data-sort-value'])` when the attribute is present (`none` models
the `ValueError` the row handler catches), else the count of `<img>`
elements in the cell. -/
def extractRarity (c : Cell) : Option Int :=
  match c.dataSortValue with
  | some v => pythonInt v
  | none => some (c.imgCount : Int)

/-- Text taken from a name/class cell, mirroring scraper.py lines 58-69:
the first `<a>` descendant's stripped text when the cell has one, else the
cell's own stripped text. -/
def cellDisplayText (c : Cell) : String :=
  match c.anchorText with
  | some t => t
  | none => c.text

/-- Process one data row against the accumulated `servants` list,
mirroring the body of the row loop (scraper.py lines 45-82): rows with
fewer than 3 cells are ignored; a `ValueError` from the rarity column is
caught and the row skipped; a record is appended only when both `name`
and `servant_class` are non-empty, with `id = len(servants) + 1`. -/
def processRow (servants : List ServantRecord) (row : Row) : List ServantRecord :=
  match row.cells with
  | c0 :: c1 :: c2 :: _ =>
    match extractRarity c0 with
    | none => servants
    | some rarity =>
      let name := cellDisplayText c1
      let servantClass := cellDisplayText c2
      if name ≠ "" ∧ servantClass ≠ "" then
        servants ++ [{ id := (servants.length : Int) + 1, name := name,
                       cls := servantClass, rarity := rarity }]
      else
        servants
  | _ => servants

/-- Process one table: skip its header row (`find_all('tr')[1:]`), then
fold the row handler over the remaining rows. -/
def processTable (servants : List ServantRecord) (t : Table) : List ServantRecord :=
  (t.rows.drop 1).foldl processRow servants

/-- Embedding of `FGOScraper.get_basic_servant_data` from the point where
the page markup has been parsed: `tables` is the list of
`wikitable sortable` tables found in the soup.  When none is found the
function logs and returns `[]`; otherwise every table's rows feed one
shared `servants` accumulator. -/
def getBasicServantData (tables : List Table) : List ServantRecord :=
  if tables.isEmpty then [] else tables.foldl processTable []

/-- Modelled from the spec: the spec's `extract(raw_markup, expected_max_id)`
claims the emitted `id`s are parsed from each data row's first cell (§4.3
steps 2-5): skip the header row, keep rows with at least 3 cells, parse the
first cell's text as an integer (rows whose first cell is not
integer-parseable are skipped), and drop ids exceeding `expectedMaxId`,
in document order.  This definition exists only to be compared with
`getBasicServantData`, which is the embedding of the code. -/
def specFirstCellIds (tables : List Table) (expectedMaxId : Int) : List Int :=
  tables.foldl (fun acc t =>
    acc ++ ((t.rows.drop 1).filterMap (fun row =>
      match row.cells with
      | c0 :: _ :: _ :: _ =>
        match pythonInt c0.text with
        | some i => if i ≤ expectedMaxId then some i else none
        | none => none
      | _ => none))) []

/-- JSON values, covering what `json.dump`/`json.load` exchange for this
program's data.  Floating-point numbers never occur in the servant dataset
and are not modelled. -/
inductive Json where
  | null : Json
  | bool : Bool → Json
  | int : Int → Json
  | str : String → Json
  | arr : List Json → Json
  | obj : List (String × Json) → Json
deriving Repr

/-- Lowercase hexadecimal digit, as `json.dump` writes in `\u00XX`. -/
def hexChar (n : Nat) : Char :=
  if n < 10 then Char.ofNat (48 + n) else Char.ofNat (87 + n)

/-- Escaping `json.dump(..., ensure_ascii=False)` applies to one character
inside a string literal: backslash and quote are escaped, the five control
characters with short escapes use them, the remaining control characters
become `\u00XX`, and every other character is written verbatim. -/
def escapeChar (c : Char) : List Char :=
  if c = '"' then ['\\', '"']
  else if c = '\\' then ['\\', '\\']
  else if c = Char.ofNat 8 then ['\\', 'b']
  else if c = Char.ofNat 9 then ['\\', 't']
  else if c = Char.ofNat 10 then ['\\', 'n']
  else if c = Char.ofNat 12 then ['\\', 'f']
  else if c = Char.ofNat 13 then ['\\', 'r']
  else if c.toNat < 32 then
    ['\\', 'u', '0', '0', hexChar (c.toNat / 16), hexChar (c.toNat % 16)]
  else [c]

/-- A JSON string literal: quote, escaped characters, quote. -/
def escapeString (s : String) : List Char :=
  '"' :: (s.toList.map escapeChar).flatten ++ ['"']

/-- Decimal digits of `n`, least significant first (empty for 0). -/
def natDigitsRev (n : Nat) : List Nat :=
  if h : n = 0 then [] else n % 10 :: natDigitsRev (n / 10)
decreasing_by exact Nat.div_lt_self (Nat.pos_of_ne_zero h) (by omega)

/-- The character of a decimal digit. -/
def digitChar (d : Nat) : Char := Char.ofNat (48 + d)

/-- Decimal representation of `n`, as Python's `str` writes it. -/
def natChars (n : Nat) : List Char :=
  if n = 0 then ['0'] else (natDigitsRev n).reverse.map digitChar

/-- Decimal representation of a Python integer, as `str(i)` writes it. -/
def intChars (i : Int) : List Char :=
  if i < 0 then '-' :: natChars (-i).toNat else natChars i.toNat

/-- The characters `json.dump(..., ensure_ascii=False, indent=2)` emits for
one servant dict, at nesting depth 1: fields one per line indented four
spaces, `": "` as key separator, closing brace indented two spaces. -/
def dumpRecordChars (r : ServantRecord) : List Char :=
  "\x7b\n    \"id\": ".toList ++ intChars r.id ++
  ",\n    \"name\": ".toList ++ escapeString r.name ++
  ",\n    \"class\": ".toList ++ escapeString r.cls ++
  ",\n    \"rarity\": ".toList ++ intChars r.rarity ++
  "\n  \x7d".toList

/-- The characters `json.dump(data, f, ensure_ascii=False, indent=2)`
writes for the whole dataset: `[]` when empty, else the records one per
block, separated by `",\n  "`, between `"[\n  "` and `"\n]"`. -/
def dumpDatasetChars : List ServantRecord → List Char
  | [] => "[]".toList
  | r :: rs =>
    "[\n  ".toList ++ dumpRecordChars r ++
    (rs.map (fun q => ",\n  ".toList ++ dumpRecordChars q)).flatten ++
    "\n]".toList

/-- The file contents `save_to_json` writes for `data`. -/
def dumpDataset (d : List ServantRecord) : String := ⟨dumpDatasetChars d⟩

/-- Embedding of `FGOScraper.save_to_json` (scraper.py lines 101-113):
when the filesystem cooperates (`fsOk`), the file at the given path ends up
holding `json.dump(data, ensure_ascii=False, indent=2)`; any filesystem
error is logged and re-raised. -/
def saveToJson (fsOk : Bool) (data : List ServantRecord) : Except String String :=
  if fsOk then Except.ok (dumpDataset data) else Except.error "Error saving data"

/-- JSON whitespace, as `json.load` skips it. -/
def skipWs (cs : List Char) : List Char :=
  cs.dropWhile (fun c => c == ' ' || c == '\n' || c == '\t' || c == '\r')

/-- Value of a hexadecimal digit. -/
def hexVal (c : Char) : Option Nat :=
  if '0' ≤ c ∧ c ≤ '9' then some (c.toNat - 48)
  else if 'a' ≤ c ∧ c ≤ 'f' then some (c.toNat - 87)
  else if 'A' ≤ c ∧ c ≤ 'F' then some (c.toNat - 55)
  else none

/-- Parse the body of a JSON string literal (after the opening quote) up to
its closing quote, decoding escapes; raw control characters are rejected as
`json.load` does in strict mode.  (`\uXXXX` surrogate pairs are not
recombined; the dataset never needs them.) -/
def parseStringBody : List Char → Option (List Char × List Char)
  | [] => none
  | c :: rest =>
    if c = '"' then some ([], rest)
    else if c = '\\' then
      match rest with
      | [] => none
      | e :: r =>
        if e = '"' then (parseStringBody r).map (fun p => ('"' :: p.1, p.2))
        else if e = '\\' then (parseStringBody r).map (fun p => ('\\' :: p.1, p.2))
        else if e = '/' then (parseStringBody r).map (fun p => ('/' :: p.1, p.2))
        else if e = 'b' then
          (parseStringBody r).map (fun p => (Char.ofNat 8 :: p.1, p.2))
        else if e = 'f' then
          (parseStringBody r).map (fun p => (Char.ofNat 12 :: p.1, p.2))
        else if e = 'n' then
          (parseStringBody r).map (fun p => (Char.ofNat 10 :: p.1, p.2))
        else if e = 'r' then
          (parseStringBody r).map (fun p => (Char.ofNat 13 :: p.1, p.2))
        else if e = 't' then
          (parseStringBody r).map (fun p => (Char.ofNat 9 :: p.1, p.2))
        else if e = 'u' then
          match r with
          | h1 :: h2 :: h3 :: h4 :: r2 =>
            match hexVal h1, hexVal h2, hexVal h3, hexVal h4 with
            | some a, some b, some c, some d =>
              (parseStringBody r2).map
                (fun p => (Char.ofNat (4096 * a + 256 * b + 16 * c + d) :: p.1, p.2))
            | _, _, _, _ => none
          | _ => none
        else none
    else if c.toNat < 32 then none
    else (parseStringBody rest).map (fun p => (c :: p.1, p.2))

/-- Consume further decimal digits, accumulating their value. -/
def parseNumAux (acc : Nat) : List Char → (Nat × List Char)
  | [] => (acc, [])
  | c :: cs =>
    if c.isDigit then parseNumAux (acc * 10 + (c.toNat - 48)) cs else (acc, c :: cs)

/-- Parse one or more decimal digits. -/
def parseNat : List Char → Option (Nat × List Char)
  | [] => none
  | c :: cs =>
    if c.isDigit then some (parseNumAux (c.toNat - 48) cs) else none

/-- Value of a digit list, least significant digit first. -/
def valRev : List Nat → Nat
  | [] => 0
  | d :: ds => d + 10 * valRev ds

/-- The head of `cs`, if any, is not a decimal digit. -/
def noDigitHead : List Char → Prop
  | [] => True
  | c :: _ => c.isDigit = false

mutual

/-- Recursive-descent JSON value parser in the style of `json.load`,
structurally recursive on a fuel argument (one unit per step; the top level
supplies more fuel than any input can consume). -/
def parseVal : Nat → List Char → Option (Json × List Char)
  | 0, _ => none
  | Nat.succ fuel, cs =>
    match skipWs cs with
    | [] => none
    | c :: rest =>
      if c = '[' then
        match skipWs rest with
        | ']' :: r2 => some (Json.arr [], r2)
        | _ =>
          match parseElems fuel rest with
          | some (items, r2) => some (Json.arr items, r2)
          | none => none
      else if c = '{' then
        match skipWs rest with
        | '}' :: r2 => some (Json.obj [], r2)
        | _ =>
          match parseMembers fuel rest with
          | some (mems, r2) => some (Json.obj mems, r2)
          | none => none
      else if c = '"' then
        match parseStringBody rest with
        | some (s, r2) => some (Json.str ⟨s⟩, r2)
        | none => none
      else if c = 't' then
        match rest with
        | 'r' :: 'u' :: 'e' :: r => some (Json.bool true, r)
        | _ => none
      else if c = 'f' then
        match rest with
        | 'a' :: 'l' :: 's' :: 'e' :: r => some (Json.bool false, r)
        | _ => none
      else if c = 'n' then
        match rest with
        | 'u' :: 'l' :: 'l' :: r => some (Json.null, r)
        | _ => none
      else if c = '-' then
        match parseNat rest with
        | some (n, r2) => some (Json.int (-(n : Int)), r2)
        | none => none
      else
        match parseNat (c :: rest) with
        | some (n, r2) => some (Json.int (n : Int), r2)
        | none => none

/-- Parse the elements of a non-empty JSON array, up to and including the
closing bracket. -/
def parseElems : Nat → List Char → Option (List Json × List Char)
  | 0, _ => none
  | Nat.succ fuel, cs =>
    match parseVal fuel cs with
    | some (v, rest) =>
      match skipWs rest with
      | ',' :: r2 =>
        match parseElems fuel r2 with
        | some (vs, r3) => some (v :: vs, r3)
        | none => none
      | ']' :: r2 => some ([v], r2)
      | _ => none
    | none => none

/-- Parse the members of a non-empty JSON object, up to and including the
closing brace. -/
def parseMembers : Nat → List Char → Option (List (String × Json) × List Char)
  | 0, _ => none
  | Nat.succ fuel, cs =>
    match skipWs cs with
    | '"' :: rest =>
      match parseStringBody rest with
      | some (k, r2) =>
        match skipWs r2 with
        | ':' :: r3 =>
          match parseVal fuel r3 with
          | some (v, r4) =>
            match skipWs r4 with
            | ',' :: r5 =>
              match parseMembers fuel r5 with
              | some (ms, r6) => some ((⟨k⟩, v) :: ms, r6)
              | none => none
            | '}' :: r5 => some ([(⟨k⟩, v)], r5)
            | _ => none
          | none => none
        | _ => none
      | none => none
    | _ => none

end

/-- Embedding of `json.load`: parse one JSON value and reject trailing
content ("Extra data"), `none` modelling `JSONDecodeError`. -/
def parseJson (s : String) : Option Json :=
  match parseVal (s.length + 1) s.toList with
  | some (v, rest) => if skipWs rest = [] then some v else none
  | none => none

/-- The JSON value of one servant dict, keys in insertion order. -/
def recordJson (r : ServantRecord) : Json :=
  Json.obj [("id", Json.int r.id), ("name", Json.str r.name),
            ("class", Json.str r.cls), ("rarity", Json.int r.rarity)]

/-- The JSON value of the whole dataset. -/
def datasetJson (d : List ServantRecord) : Json :=
  Json.arr (d.map recordJson)

/-- Read one servant dict back from its JSON value. -/
def recordOfJson : Json → Option ServantRecord
  | Json.obj [("id", Json.int i), ("name", Json.str n),
              ("class", Json.str c), ("rarity", Json.int ra)] =>
    some { id := i, name := n, cls := c, rarity := ra }
  | _ => none

/-- Read a list of servant dicts from a list of JSON values. -/
def recordsOfJson : List Json → Option (List ServantRecord)
  | [] => some []
  | j :: js =>
    match recordOfJson j, recordsOfJson js with
    | some r, some rs => some (r :: rs)
    | _, _ => none

/-- Read a dataset back from its JSON value (the field-for-field reading of
the list of dicts `json.load` returns). -/
def jsonToDataset : Json → Option (List ServantRecord)
  | Json.arr items => recordsOfJson items
  | _ => none

/-- Embedding of `load_servant_data` (main.py lines 15-25): `none` models a
missing dataset file (`FileNotFoundError`, logged, empty dataset returned);
undecodable contents (`JSONDecodeError`) likewise yield the empty dataset;
otherwise the parsed JSON value is returned as-is. -/
def loadServantData (file : Option String) : Json :=
  match file with
  | none => Json.arr []
  | some s =>
    match parseJson s with
    | some j => j
    | none => Json.arr []

/-- Outcome of the page fetch and parse, carrying what the error handling
of `get_basic_servant_data` inspects: `fetchError` models a
`requests.RequestException` (connection error or `raise_for_status`);
`ok title tables` models a successful response whose soup has the given
`<title>` tag (`none` when the page has no title tag; `some s` carries the
tag's `.string`, which is itself `none` when the tag lacks a single string
child) and the given `wikitable sortable` tables (possibly none). -/
inductive FetchResult where
  | fetchError : FetchResult
  | ok : Option (Option String) → List Table → FetchResult
deriving DecidableEq

/-- The whole of `get_basic_servant_data` including its outer `try/except`
(scraper.py lines 22-99): a `RequestException` is caught and `[]` returned
(lines 94-96).  On a page with no servant tables, the debug logging at
line 37 evaluates `"Page title: " + soup.title.string` whenever the title
tag is present (the conditional expression binds as
`("Page title: " + soup.title.string) if soup.title else ...`), which
raises `TypeError` when that `.string` is `None`; the generic handler at
lines 97-99 logs and re-raises it (modelled as `Except.error`), so it
escapes the function.  Otherwise the row loop, which absorbs all of its
own per-row failures, produces the record list. -/
def scrapeRun (f : FetchResult) : Except String (List ServantRecord) :=
  match f with
  | FetchResult.fetchError => Except.ok []
  | FetchResult.ok title tables =>
    if tables.isEmpty then
      match title with
      | some none =>
        Except.error "TypeError: can only concatenate str (not \"NoneType\") to str"
      | _ => Except.ok []
    else
      Except.ok (getBasicServantData tables)

/-- Embedding of the `main()` run (scraper.py lines 115-121): scrape,
letting any exception re-raised inside `get_basic_servant_data` propagate,
then save only when the result is non-empty.  `fsOk` models whether the
filesystem write in `save_to_json` succeeds; on failure `save_to_json`
logs and re-raises (lines 111-113), which propagates out of `main`
(modelled as `Except.error`). -/
def mainRun (f : FetchResult) (fsOk : Bool) : Except String Unit :=
  match scrapeRun f with
  | Except.error e => Except.error e
  | Except.ok servants =>
    if servants.isEmpty then
      Except.ok ()
    else
      match saveToJson fsOk servants with
      | Except.ok _ => Except.ok ()
      | Except.error e => Except.error e

/-- Embedding of the lookup loop of `get_servant` (main.py lines 43-47):
scan the dataset in order, return the first record whose `id` equals
`servant_id`, else the 404 `HTTPException` (modelled as `Except.error`). -/
def getServant : List ServantRecord → Int → Except String ServantRecord
  | [], _ => Except.error "Servant not found"
  | s :: rest, servantId =>
    if s.id = servantId then Except.ok s else getServant rest servantId

/-- The positional-id invariant: the id of each record of `l` is its
1-based position in `l`. -/
def idsPositional (l : List ServantRecord) : Prop :=
  ∀ (i : Nat) (hi : i < l.length), (l.get ⟨i, hi⟩).id = (i : Int) + 1

/-- Invariant for C10: every record of `l` has a non-empty name and class. -/
def namesNonEmpty (l : List ServantRecord) : Prop :=
  ∀ r ∈ l, r.name ≠ "" ∧ r.cls ≠ ""

/-- A fold preserves any invariant its step preserves. -/
theorem foldl_invariant {α β : Type} (P : α → Prop) (f : α → β → α)
    (step : ∀ a b, P a → P (f a b)) :
    ∀ (l : List β) (a : α), P a → P (l.foldl f a) := by
  intro l
  induction l with
  | nil => intro a h; simpa using h
  | cons b bs ih =>
    intro a h
    simpa using ih (f a b) (step a b h)

theorem idsPositional_nil : idsPositional [] := by
  intro i hi
  simp at hi

theorem idsPositional_append (l : List ServantRecord) (r : ServantRecord)
    (h : idsPositional l) (hid : r.id = (l.length : Int) + 1) :
    idsPositional (l ++ [r]) := by
  intro i hi
  simp only [List.get_eq_getElem]
  by_cases hil : i < l.length
  · rw [List.getElem_append_left hil]
    simpa using h i hil
  · have hieq : i = l.length := by simp at hi; omega
    subst hieq
    simp [List.getElem_concat_length, hid]

/-- The row handler `processRow` either leaves the accumulator unchanged (row skipped) or
appends exactly one record with non-empty name and class and the next
positional id. -/
theorem processRow_cases (l : List ServantRecord) (row : Row) :
    processRow l row = l ∨
    ∃ nm cl ra, nm ≠ "" ∧ cl ≠ "" ∧
      processRow l row =
        l ++ [{ id := (l.length : Int) + 1, name := nm, cls := cl, rarity := ra }] := by
  obtain ⟨cells⟩ := row
  match cells with
  | [] => left; rfl
  | [c0] => left; rfl
  | [c0, c1] => left; rfl
  | c0 :: c1 :: c2 :: r2 =>
    cases hr : extractRarity c0 with
    | none => left; simp [processRow, hr]
    | some rarity =>
      by_cases hne : cellDisplayText c1 ≠ "" ∧ cellDisplayText c2 ≠ ""
      · right
        refine ⟨cellDisplayText c1, cellDisplayText c2, rarity, hne.1, hne.2, ?_⟩
        simp [processRow, hr, hne]
      · left; simp [processRow, hr, hne]

theorem processRow_idsPositional (l : List ServantRecord) (row : Row)
    (h : idsPositional l) : idsPositional (processRow l row) := by
  rcases processRow_cases l row with heq | ⟨nm, cl, ra, _, _, heq⟩
  · rw [heq]; exact h
  · rw [heq]; exact idsPositional_append l _ h rfl

theorem processTable_idsPositional (l : List ServantRecord) (t : Table)
    (h : idsPositional l) : idsPositional (processTable l t) :=
  foldl_invariant idsPositional processRow processRow_idsPositional _ l h

theorem getBasicServantData_idsPositional (tables : List Table) :
    idsPositional (getBasicServantData tables) := by
  unfold getBasicServantData
  by_cases h : tables.isEmpty
  · simp [h, idsPositional_nil]
  · simp only [h, if_neg, Bool.false_eq_true, not_false_iff]
    exact foldl_invariant idsPositional processTable processTable_idsPositional
      tables [] idsPositional_nil

theorem processRow_namesNonEmpty (l : List ServantRecord) (row : Row)
    (h : namesNonEmpty l) : namesNonEmpty (processRow l row) := by
  rcases processRow_cases l row with heq | ⟨nm, cl, ra, hnm, hcl, heq⟩
  · rw [heq]; exact h
  · rw [heq]
    intro r hr
    rcases List.mem_append.mp hr with hmem | hmem
    · exact h r hmem
    · rcases List.mem_singleton.mp hmem with rfl
      exact ⟨hnm, hcl⟩

theorem processTable_namesNonEmpty (l : List ServantRecord) (t : Table)
    (h : namesNonEmpty l) : namesNonEmpty (processTable l t) :=
  foldl_invariant namesNonEmpty processRow processRow_namesNonEmpty _ l h

theorem getBasicServantData_namesNonEmpty (tables : List Table) :
    namesNonEmpty (getBasicServantData tables) := by
  unfold getBasicServantData
  by_cases h : tables.isEmpty
  · simp only [h, if_pos]
    intro r hr
    simp at hr
  · simp only [h, if_neg, Bool.false_eq_true, not_false_iff]
    exact foldl_invariant namesNonEmpty processTable processTable_namesNonEmpty
      tables [] (by intro r hr; simp at hr)

/-- A row with fewer than 3 cells leaves the accumulator untouched. -/
theorem processRow_shortRow (l : List ServantRecord) (cs : List Cell)
    (h : cs.length < 3) : processRow l ⟨cs⟩ = l := by
  rcases cs with _ | ⟨c0, _ | ⟨c1, _ | ⟨c2, r⟩⟩⟩
  · rfl
  · rfl
  · rfl
  · simp only [List.length_cons] at h; omega

/-- A row whose rarity column raises (unparseable `data-sort-value`) is
skipped: the fold over the remaining rows proceeds from the unchanged
accumulator. -/
theorem processRow_raising_skipped (l : List ServantRecord)
    (c0 c1 c2 : Cell) (rest : List Cell) (hr : extractRarity c0 = none) :
    processRow l ⟨c0 :: c1 :: c2 :: rest⟩ = l := by
  simp [processRow, hr]

/-- A row whose class cell displays empty text is skipped. -/
theorem processRow_emptyClass (l : List ServantRecord)
    (c0 c1 c2 : Cell) (rest : List Cell) (hcl : cellDisplayText c2 = "") :
    processRow l ⟨c0 :: c1 :: c2 :: rest⟩ = l := by
  cases hr : extractRarity c0 with
  | none => simp [processRow, hr]
  | some rarity => simp [processRow, hr, hcl]

/-- C9: in every list returned by the scraper, the id of each record equals
its 1-based position in the list — ids are consecutive integers `1..n`
assigned in emission order, regardless of the source markup's contents. -/
theorem C9_ids_are_positions (tables : List Table) (i : Nat)
    (hi : i < (getBasicServantData tables).length) :
    ((getBasicServantData tables).get ⟨i, hi⟩).id = (i : Int) + 1 :=
  getBasicServantData_idsPositional tables i hi

theorem C9_ids_are_positions_witness :
    ((getBasicServantData
        [⟨[⟨[]⟩,
           ⟨[⟨none, 2, none, "stars"⟩, ⟨none, 0, some "Mash", "Mash"⟩,
             ⟨none, 0, some "Shielder", "Shielder"⟩]⟩]⟩]).get
      ⟨0, by decide⟩).id = (0 : Int) + 1 :=
  C9_ids_are_positions
    [⟨[⟨[]⟩,
       ⟨[⟨none, 2, none, "stars"⟩, ⟨none, 0, some "Mash", "Mash"⟩,
         ⟨none, 0, some "Shielder", "Shielder"⟩]⟩]⟩] 0 (by decide)

/-- C10: every record emitted by the scraper has a non-empty name and a
non-empty class, and a row whose class cell displays empty text is skipped
entirely, even when its name cell is non-empty. -/
theorem C10_nonempty_name_and_class (tables : List Table) (r : ServantRecord)
    (hr : r ∈ getBasicServantData tables)
    (l : List ServantRecord) (c0 c1 c2 : Cell) (rest : List Cell)
    (hcl : cellDisplayText c2 = "") :
    (r.name ≠ "" ∧ r.cls ≠ "") ∧ processRow l ⟨c0 :: c1 :: c2 :: rest⟩ = l :=
  ⟨getBasicServantData_namesNonEmpty tables r hr,
   processRow_emptyClass l c0 c1 c2 rest hcl⟩

theorem C10_nonempty_name_and_class_witness :
    ((({ id := 1, name := "Mash", cls := "Shielder", rarity := 2 } :
        ServantRecord).name ≠ "" ∧
      (({ id := 1, name := "Mash", cls := "Shielder", rarity := 2 } :
        ServantRecord)).cls ≠ "") ∧
     processRow []
        ⟨[⟨none, 1, none, "star"⟩, ⟨none, 0, some "Nameful", "Nameful"⟩,
          ⟨none, 0, some "", ""⟩]⟩ = []) :=
  C10_nonempty_name_and_class
    [⟨[⟨[]⟩,
       ⟨[⟨none, 2, none, "stars"⟩, ⟨none, 0, some "Mash", "Mash"⟩,
         ⟨none, 0, some "Shielder", "Shielder"⟩]⟩]⟩]
    { id := 1, name := "Mash", cls := "Shielder", rarity := 2 }
    (by decide)
    [] ⟨none, 1, none, "star"⟩ ⟨none, 0, some "Nameful", "Nameful"⟩
    ⟨none, 0, some "", ""⟩ [] (by decide)

/-- C8: a row with fewer than 3 cells is skipped entirely — the servants
list is unchanged, so no (partial) record is emitted for it. -/
theorem C8_short_rows_skipped (l : List ServantRecord) (cs : List Cell)
    (h : cs.length < 3) : processRow l ⟨cs⟩ = l :=
  processRow_shortRow l cs h

theorem C8_short_rows_skipped_witness :
    processRow [{ id := 1, name := "Mash", cls := "Shielder", rarity := 2 }]
        ⟨[⟨none, 0, none, "a"⟩, ⟨none, 0, some "OnlyTwo", "OnlyTwo"⟩]⟩ =
      [{ id := 1, name := "Mash", cls := "Shielder", rarity := 2 }] :=
  C8_short_rows_skipped
    [{ id := 1, name := "Mash", cls := "Shielder", rarity := 2 }]
    [⟨none, 0, none, "a"⟩, ⟨none, 0, some "OnlyTwo", "OnlyTwo"⟩] (by decide)

/-- C7: a row whose processing raises (here: `int` on an unparseable
`data-sort-value`, the only raising operation in the row body) is caught
and skipped individually; the fold over the remaining rows of the table
continues from the unchanged accumulator, so their records are still
emitted exactly as without the bad row. -/
theorem C7_raising_row_only_skipped (l : List ServantRecord)
    (c0 c1 c2 : Cell) (rest : List Cell) (rows : List Row)
    (hr : extractRarity c0 = none) :
    (({ cells := c0 :: c1 :: c2 :: rest } : Row) :: rows).foldl processRow l =
      rows.foldl processRow l := by
  simp only [List.foldl_cons]
  rw [processRow_raising_skipped l c0 c1 c2 rest hr]

theorem C7_raising_row_only_skipped_witness :
    (({ cells := [⟨some "N/A", 0, none, "N/A"⟩, ⟨none, 0, some "Bad", "Bad"⟩,
          ⟨none, 0, some "Row", "Row"⟩] } : Row) ::
        [⟨[⟨none, 4, none, "stars"⟩, ⟨none, 0, some "Jeanne", "Jeanne"⟩,
           ⟨none, 0, some "Ruler", "Ruler"⟩]⟩]).foldl processRow [] =
      ([⟨[⟨none, 4, none, "stars"⟩, ⟨none, 0, some "Jeanne", "Jeanne"⟩,
          ⟨none, 0, some "Ruler", "Ruler"⟩]⟩] : List Row).foldl processRow [] :=
  C7_raising_row_only_skipped [] ⟨some "N/A", 0, none, "N/A"⟩
    ⟨none, 0, some "Bad", "Bad"⟩ ⟨none, 0, some "Row", "Row"⟩ []
    [⟨[⟨none, 4, none, "stars"⟩, ⟨none, 0, some "Jeanne", "Jeanne"⟩,
       ⟨none, 0, some "Ruler", "Ruler"⟩]⟩] (by decide)

/-- C6: when the rarity cell has no `data-sort-value` attribute, rarity is
the count of `<img>` icons in that cell (3 icons give 3; 0 icons, hence
neither signal, give 0), and name and class come from the embedded
hyperlink text of their cells when present. -/
theorem C6_icon_fallback_and_link_text (l : List ServantRecord)
    (c0 c1 c2 : Cell) (rest : List Cell) (n k : String)
    (hsv : c0.dataSortValue = none)
    (hn : c1.anchorText = some n) (hk : c2.anchorText = some k)
    (hne : n ≠ "") (hke : k ≠ "") :
    extractRarity c0 = some (c0.imgCount : Int) ∧
    processRow l ⟨c0 :: c1 :: c2 :: rest⟩ =
      l ++ [{ id := (l.length : Int) + 1, name := n, cls := k,
              rarity := (c0.imgCount : Int) }] := by
  constructor
  · simp [extractRarity, hsv]
  · simp [processRow, extractRarity, hsv, cellDisplayText, hn, hk, hne, hke]

theorem C6_icon_fallback_and_link_text_witness :
    extractRarity ⟨none, 3, none, "icons"⟩ = some ((3 : Nat) : Int) ∧
    processRow [] ⟨[⟨none, 3, none, "icons"⟩,
        ⟨none, 0, some "Artoria", "Artoria"⟩,
        ⟨none, 0, some "Saber", "Saber"⟩]⟩ =
      [] ++ [{ id := (([] : List ServantRecord).length : Int) + 1,
               name := "Artoria", cls := "Saber", rarity := ((3 : Nat) : Int) }] :=
  C6_icon_fallback_and_link_text [] ⟨none, 3, none, "icons"⟩
    ⟨none, 0, some "Artoria", "Artoria"⟩ ⟨none, 0, some "Saber", "Saber"⟩ []
    "Artoria" "Saber" rfl rfl rfl (by decide) (by decide)

/-- C1 is false on the code: the emitted ids are not the integer-parseable
first cells.  At this table (header plus one valid data row whose first
cell's text is "2") the code emits id 1, while the spec's reading yields
[2] for any `expected_max_id ≥ 2`, e.g. 500. -/
theorem C1_counterexample :
    (getBasicServantData
        [⟨[⟨[]⟩,
           ⟨[⟨none, 0, none, "2"⟩, ⟨none, 0, some "Artoria", "Artoria"⟩,
             ⟨none, 0, some "Saber", "Saber"⟩]⟩]⟩]).map (fun r => r.id) ≠
      specFirstCellIds
        [⟨[⟨[]⟩,
           ⟨[⟨none, 0, none, "2"⟩, ⟨none, 0, some "Artoria", "Artoria"⟩,
             ⟨none, 0, some "Saber", "Saber"⟩]⟩]⟩] 500 := by decide

/-- C1 (amended): for every markup table, the emitted records' id values
are the consecutive integers `1..n`, assigned in emission (document) order
independently of the first cells' contents; a row whose first cell carries
a sort-value attribute that is not integer-parseable is skipped without
aborting the extraction of the remaining rows. -/
theorem C1_amended_positional_ids (tables : List Table) (i : Nat)
    (hi : i < (getBasicServantData tables).length)
    (l : List ServantRecord) (c0 c1 c2 : Cell) (rest : List Cell)
    (rows : List Row) (v : String)
    (hv : c0.dataSortValue = some v) (hpv : pythonInt v = none) :
    ((getBasicServantData tables).get ⟨i, hi⟩).id = (i : Int) + 1 ∧
    (({ cells := c0 :: c1 :: c2 :: rest } : Row) :: rows).foldl processRow l =
      rows.foldl processRow l := by
  refine ⟨getBasicServantData_idsPositional tables i hi, ?_⟩
  simp only [List.foldl_cons]
  rw [processRow_raising_skipped l c0 c1 c2 rest (by simp [extractRarity, hv, hpv])]

theorem C1_amended_positional_ids_witness :
    ((getBasicServantData
        [⟨[⟨[]⟩,
           ⟨[⟨none, 5, none, "five"⟩, ⟨none, 0, some "Gilgamesh", "Gilgamesh"⟩,
             ⟨none, 0, some "Archer", "Archer"⟩]⟩]⟩]).get ⟨0, by decide⟩).id =
      (0 : Int) + 1 ∧
    (({ cells := [⟨some "abc", 0, none, "abc"⟩, ⟨none, 0, some "X", "X"⟩,
          ⟨none, 0, some "Y", "Y"⟩] } : Row) :: ([] : List Row)).foldl
        processRow [] =
      ([] : List Row).foldl processRow [] :=
  C1_amended_positional_ids
    [⟨[⟨[]⟩,
       ⟨[⟨none, 5, none, "five"⟩, ⟨none, 0, some "Gilgamesh", "Gilgamesh"⟩,
         ⟨none, 0, some "Archer", "Archer"⟩]⟩]⟩] 0 (by decide)
    [] ⟨some "abc", 0, none, "abc"⟩ ⟨none, 0, some "X", "X"⟩
    ⟨none, 0, some "Y", "Y"⟩ [] [] "abc" rfl (by decide)

/-- C2 is false on the code: with a perfectly working dataset store, a
page with no servant tables whose `<title>` tag has no string makes the
debug logging at scraper.py line 37 raise `TypeError`, which the generic
`except Exception` handler at lines 97-99 re-raises; the run aborts with a
failure that is not a dataset-store write failure (the store flag here is
`true`, and `save_to_json` is never even reached). -/
theorem C2_counterexample :
    scrapeRun (FetchResult.ok (some none) []) =
      Except.error "TypeError: can only concatenate str (not \"NoneType\") to str" ∧
    mainRun (FetchResult.ok (some none) []) true =
      Except.error "TypeError: can only concatenate str (not \"NoneType\") to str" :=
  ⟨rfl, rfl⟩

/-- C2 (amended): fetch errors (`RequestException`) and all per-row
failures are absorbed locally and never abort the run; the failures that
propagate to the run's caller are exactly a dataset-store write failure in
`save` when there was data to save, and the unexpected exception re-raised
by `get_basic_servant_data`'s generic handler, reachable on a page with no
servant tables whose title tag is present but has no string. -/
theorem C2_amended_store_or_reraise (f : FetchResult) (fsOk : Bool) :
    ((∃ e, mainRun f fsOk = Except.error e) ↔
      ((∃ t, f = FetchResult.ok (some none) t ∧ t.isEmpty = true) ∨
       (fsOk = false ∧
         ∃ s, scrapeRun f = Except.ok s ∧ s.isEmpty = false))) ∧
    mainRun FetchResult.fetchError fsOk = Except.ok () := by
  constructor
  · constructor
    · rintro ⟨e, he⟩
      cases f with
      | fetchError => simp [mainRun, scrapeRun] at he
      | ok title tables =>
        by_cases ht : tables.isEmpty
        · cases title with
          | none => simp [mainRun, scrapeRun, ht] at he
          | some s =>
            cases s with
            | none => exact Or.inl ⟨tables, rfl, by simpa using ht⟩
            | some str => simp [mainRun, scrapeRun, ht] at he
        · by_cases hs : (getBasicServantData tables).isEmpty
          · simp [mainRun, scrapeRun, ht, hs] at he
          · cases fsOk with
            | true => simp [mainRun, scrapeRun, saveToJson, ht, hs] at he
            | false =>
              refine Or.inr ⟨rfl, getBasicServantData tables, ?_, ?_⟩
              · simp [scrapeRun, ht]
              · simpa using hs
    · rintro (⟨t, rfl, ht⟩ | ⟨hf, s, hs, hne⟩)
      · refine ⟨"TypeError: can only concatenate str (not \"NoneType\") to str", ?_⟩
        simp [mainRun, scrapeRun, ht]
      · subst hf
        refine ⟨"Error saving data", ?_⟩
        simp [mainRun, hs, hne, saveToJson]
  · rfl

/-- C5: `get_servant` linearly scans the dataset; when no record carries
the requested id it returns the 404 signal (never a default record), when
one does it returns the first matching record, and any successful answer
is a member of the dataset with the requested id. -/
theorem C5_getById_not_found_or_match (servants : List ServantRecord) (i : Int) :
    ((∀ s ∈ servants, s.id ≠ i) →
      getServant servants i = Except.error "Servant not found") ∧
    (∀ s, getServant servants i = Except.ok s → s.id = i ∧ s ∈ servants) ∧
    ((∃ s ∈ servants, s.id = i) →
      ∃ s, getServant servants i = Except.ok s ∧ s.id = i) := by
  induction servants with
  | nil =>
    refine ⟨fun _ => rfl, ?_, ?_⟩
    · intro s hs
      simp [getServant] at hs
    · rintro ⟨s, hs, _⟩
      simp at hs
  | cons a rest ih =>
    refine ⟨?_, ?_, ?_⟩
    · intro hall
      have ha : a.id ≠ i := hall a (by simp)
      simp only [getServant, if_neg ha]
      exact ih.1 (fun s hs => hall s (by simp [hs]))
    · intro s hs
      by_cases hai : a.id = i
      · simp only [getServant, if_pos hai] at hs
        cases hs
        exact ⟨hai, by simp⟩
      · simp only [getServant, if_neg hai] at hs
        obtain ⟨h1, h2⟩ := ih.2.1 s hs
        exact ⟨h1, by simp [h2]⟩
    · rintro ⟨s, hs, hsid⟩
      by_cases hai : a.id = i
      · exact ⟨a, by simp [getServant, if_pos hai], hai⟩
      · rcases List.mem_cons.mp hs with rfl | hmem
        · exact absurd hsid hai
        · obtain ⟨t, ht, htid⟩ := ih.2.2 ⟨s, hmem, hsid⟩
          exact ⟨t, by simp [getServant, if_neg hai, ht], htid⟩

theorem C5_getById_witness :
    ((∀ s ∈ [({ id := 1, name := "Mash", cls := "Shielder", rarity := 2 } :
        ServantRecord)], s.id ≠ (9999 : Int)) →
      getServant [{ id := 1, name := "Mash", cls := "Shielder", rarity := 2 }]
        9999 = Except.error "Servant not found") ∧
    (∀ s, getServant
        [({ id := 1, name := "Mash", cls := "Shielder", rarity := 2 } :
          ServantRecord)] 9999 = Except.ok s →
      s.id = 9999 ∧
        s ∈ [({ id := 1, name := "Mash", cls := "Shielder", rarity := 2 } :
          ServantRecord)]) ∧
    ((∃ s ∈ [({ id := 1, name := "Mash", cls := "Shielder", rarity := 2 } :
        ServantRecord)], s.id = (9999 : Int)) →
      ∃ s,
        getServant
          [{ id := 1, name := "Mash", cls := "Shielder", rarity := 2 }]
          9999 = Except.ok s ∧ s.id = 9999) :=
  C5_getById_not_found_or_match
    [{ id := 1, name := "Mash", cls := "Shielder", rarity := 2 }] 9999

theorem digitChar_isDigit (d : Nat) (h : d < 10) : (digitChar d).isDigit = true := by
  unfold digitChar; interval_cases d <;> decide

theorem digitChar_toNat (d : Nat) (h : d < 10) : (digitChar d).toNat = 48 + d := by
  unfold digitChar; interval_cases d <;> decide

theorem valRev_natDigitsRev (n : Nat) : valRev (natDigitsRev n) = n := by
  induction n using Nat.strong_induction_on with
  | _ n ih =>
    unfold natDigitsRev
    by_cases h : n = 0
    · simp [h, valRev]
    · simp only [h, dif_neg, not_false_iff]
      rw [valRev]
      rw [ih (n / 10) (Nat.div_lt_self (Nat.pos_of_ne_zero h) (by omega))]
      omega

theorem natDigitsRev_lt (n : Nat) : ∀ d ∈ natDigitsRev n, d < 10 := by
  induction n using Nat.strong_induction_on with
  | _ n ih =>
    unfold natDigitsRev
    by_cases h : n = 0
    · simp [h]
    · simp only [h, dif_neg, not_false_iff, List.mem_cons]
      rintro d (rfl | hd)
      · omega
      · exact ih (n / 10) (Nat.div_lt_self (Nat.pos_of_ne_zero h) (by omega)) d hd

theorem natDigitsRev_ne_nil (n : Nat) (h : n ≠ 0) : natDigitsRev n ≠ [] := by
  unfold natDigitsRev
  simp [h]

theorem foldl_digits_reverse (ds : List Nat) (a : Nat) :
    (ds.reverse).foldl (fun x d => x * 10 + d) a = a * 10 ^ ds.length + valRev ds := by
  induction ds generalizing a with
  | nil => simp [valRev]
  | cons d ds ih =>
    simp only [List.reverse_cons, List.foldl_append, List.foldl_cons, List.foldl_nil,
      ih, valRev, List.length_cons]
    ring

theorem parseNumAux_digits (ds : List Nat) (hds : ∀ d ∈ ds, d < 10) (a : Nat)
    (rest : List Char) (hrest : noDigitHead rest) :
    parseNumAux a (ds.map digitChar ++ rest) =
      (ds.foldl (fun x d => x * 10 + d) a, rest) := by
  induction ds generalizing a with
  | nil =>
    cases rest with
    | nil => rfl
    | cons c cs =>
      have hc : c.isDigit = false := hrest
      simp [parseNumAux, hc]
  | cons d ds ih =>
    have hd : d < 10 := hds d (by simp)
    simp only [List.map_cons, List.cons_append, parseNumAux,
      digitChar_isDigit d hd, if_pos, digitChar_toNat d hd, List.foldl_cons]
    have : 48 + d - 48 = d := by omega
    rw [this]
    exact ih (fun x hx => hds x (by simp [hx])) (a * 10 + d)

theorem parseNat_digits (ds : List Nat) (hne : ds ≠ []) (hds : ∀ d ∈ ds, d < 10)
    (rest : List Char) (hrest : noDigitHead rest) :
    parseNat (ds.map digitChar ++ rest) =
      some (ds.foldl (fun x d => x * 10 + d) 0, rest) := by
  cases ds with
  | nil => exact absurd rfl hne
  | cons d ds =>
    have hd : d < 10 := hds d (by simp)
    simp only [List.map_cons, List.cons_append, parseNat,
      digitChar_isDigit d hd, if_pos, digitChar_toNat d hd, List.foldl_cons]
    have h1 : 48 + d - 48 = d := by omega
    have h2 : (0 : Nat) * 10 + d = d := by omega
    rw [h1, h2]
    rw [parseNumAux_digits ds (fun x hx => hds x (by simp [hx])) d rest hrest]

theorem parseNat_natChars (n : Nat) (rest : List Char) (hrest : noDigitHead rest) :
    parseNat (natChars n ++ rest) = some (n, rest) := by
  unfold natChars
  by_cases h : n = 0
  · subst h
    simp only [if_pos]
    have := parseNat_digits [0] (by simp) (by simp) rest hrest
    simpa [digitChar] using this
  · simp only [h, if_neg, Bool.false_eq_true, not_false_iff]
    rw [parseNat_digits _ (by simpa using natDigitsRev_ne_nil n h)
      (fun d hd => natDigitsRev_lt n d (by simpa using hd)) rest hrest]
    rw [foldl_digits_reverse]
    simp [valRev_natDigitsRev]

theorem hexVal_hexChar (v : Nat) (h : v < 16) : hexVal (hexChar v) = some v := by
  unfold hexChar hexVal
  interval_cases v <;> decide

theorem parseStringBody_cons_other (c : Char) (rest : List Char)
    (h1 : c ≠ '"') (h2 : c ≠ '\\') (h3 : 32 ≤ c.toNat) :
    parseStringBody (c :: rest) =
      (parseStringBody rest).map (fun p => (c :: p.1, p.2)) := by
  rw [parseStringBody.eq_def]
  simp only [if_neg h1, if_neg h2, if_neg (by omega : ¬ c.toNat < 32)]

theorem parseStringBody_escape (l : List Char) (rest : List Char) :
    parseStringBody ((l.map escapeChar).flatten ++ '"' :: rest) = some (l, rest) := by
  induction l with
  | nil =>
    rw [parseStringBody.eq_def]
    simp
  | cons c l ih =>
    simp only [List.map_cons, List.flatten_cons, List.append_assoc]
    by_cases h1 : c = '"'
    · subst h1
      simp only [escapeChar, if_pos rfl, List.cons_append, List.nil_append]
      rw [parseStringBody.eq_def]
      simp [ih]
    · by_cases h2 : c = '\\'
      · subst h2
        simp only [escapeChar, reduceIte, List.cons_append, List.nil_append]
        rw [parseStringBody.eq_def]
        simp [ih]
      · by_cases h3 : c = Char.ofNat 8
        · subst h3
          simp only [escapeChar, reduceIte, List.cons_append, List.nil_append]
          rw [parseStringBody.eq_def]
          simp [ih]
        · by_cases h4 : c = Char.ofNat 9
          · subst h4
            simp only [escapeChar, reduceIte, List.cons_append, List.nil_append]
            rw [parseStringBody.eq_def]
            simp [ih]
          · by_cases h5 : c = Char.ofNat 10
            · subst h5
              simp only [escapeChar, reduceIte, List.cons_append, List.nil_append]
              rw [parseStringBody.eq_def]
              simp [ih]
            · by_cases h6 : c = Char.ofNat 12
              · subst h6
                simp only [escapeChar, reduceIte, List.cons_append, List.nil_append]
                rw [parseStringBody.eq_def]
                simp [ih]
              · by_cases h7 : c = Char.ofNat 13
                · subst h7
                  simp only [escapeChar, reduceIte, List.cons_append, List.nil_append]
                  rw [parseStringBody.eq_def]
                  simp [ih]
                · by_cases h8 : c.toNat < 32
                  · have hhi : c.toNat / 16 < 16 := by omega
                    have hlo : c.toNat % 16 < 16 := by omega
                    simp only [escapeChar, if_neg h1, if_neg h2, if_neg h3, if_neg h4,
                      if_neg h5, if_neg h6, if_neg h7, if_pos h8, List.cons_append,
                      List.nil_append]
                    rw [parseStringBody.eq_def]
                    simp [hexVal_hexChar _ hhi, hexVal_hexChar _ hlo, ih,
                      (by decide : hexVal '0' = some 0)]
                    rw [(by omega : 16 * (c.toNat / 16) + c.toNat % 16 = c.toNat),
                      Char.ofNat_toNat]
                  · simp only [escapeChar, if_neg h1, if_neg h2, if_neg h3, if_neg h4,
                      if_neg h5, if_neg h6, if_neg h7, if_neg h8, List.cons_append,
                      List.nil_append]
                    rw [parseStringBody_cons_other c _ h1 h2 (by omega)]
                    simp [ih]

theorem ne_of_isDigit (c a : Char) (hc : c.isDigit = true) (ha : a.isDigit = false) :
    c ≠ a := by
  intro h
  subst h
  rw [hc] at ha
  exact absurd ha (by decide)

theorem skipWs_nil : skipWs [] = [] := rfl

theorem skipWs_cons_not (c : Char) (x : List Char)
    (h : (c == ' ' || c == '\n' || c == '\t' || c == '\r') = false) :
    skipWs (c :: x) = c :: x := by
  unfold skipWs
  rw [List.dropWhile_cons, if_neg (by simp [h])]

theorem skipWs_sp (x : List Char) : skipWs (' ' :: x) = skipWs x := by
  unfold skipWs
  rw [List.dropWhile_cons, if_pos (by decide)]

theorem skipWs_nl (x : List Char) : skipWs ('\n' :: x) = skipWs x := by
  unfold skipWs
  rw [List.dropWhile_cons, if_pos (by decide)]

theorem skipWs_cons_digit (c : Char) (x : List Char) (hc : c.isDigit = true) :
    skipWs (c :: x) = c :: x := by
  refine skipWs_cons_not c x ?_
  have h1 : c ≠ ' ' := ne_of_isDigit c ' ' hc (by decide)
  have h2 : c ≠ '\n' := ne_of_isDigit c '\n' hc (by decide)
  have h3 : c ≠ '\t' := ne_of_isDigit c '\t' hc (by decide)
  have h4 : c ≠ '\r' := ne_of_isDigit c '\r' hc (by decide)
  simp [h1, h2, h3, h4]

theorem natChars_head_digit (n : Nat) :
    ∃ c t, natChars n = c :: t ∧ c.isDigit = true := by
  unfold natChars
  by_cases h : n = 0
  · exact ⟨'0', [], by simp [h], by decide⟩
  · simp only [h, if_neg, Bool.false_eq_true, not_false_iff]
    obtain ⟨d, ds, hds⟩ := List.exists_cons_of_ne_nil
      (by simpa using natDigitsRev_ne_nil n h : (natDigitsRev n).reverse ≠ [])
    refine ⟨digitChar d, ds.map digitChar, by rw [hds]; rfl, ?_⟩
    have hd : d < 10 := by
      apply natDigitsRev_lt n
      have : d ∈ (natDigitsRev n).reverse := by rw [hds]; simp
      simpa using this
    exact digitChar_isDigit d hd

theorem skipWs_intChars (i : Int) (x : List Char) :
    skipWs (intChars i ++ x) = intChars i ++ x := by
  unfold intChars
  by_cases hi : i < 0
  · simp only [hi, if_pos]
    exact skipWs_cons_not '-' _ (by decide)
  · simp only [hi, if_neg, not_false_iff]
    obtain ⟨c, t, hct, hc⟩ := natChars_head_digit i.toNat
    rw [hct]
    exact skipWs_cons_digit c _ hc

theorem parseVal_int (f : Nat) (i : Int) (cs rest : List Char)
    (hcs : skipWs cs = intChars i ++ rest) (hrest : noDigitHead rest) :
    parseVal (f + 1) cs = some (Json.int i, rest) := by
  simp only [parseVal]
  rw [hcs]
  unfold intChars
  by_cases hi : i < 0
  · rw [if_pos hi, List.cons_append]
    simp only []
    simp only [Char.reduceEq, reduceIte]
    rw [parseNat_natChars _ _ hrest]
    have h2 : -(((-i).toNat : Int)) = i := by omega
    simp only []
    rw [h2]
  · rw [if_neg hi]
    obtain ⟨c, t, hct, hc⟩ := natChars_head_digit i.toNat
    rw [hct, List.cons_append]
    simp only []
    rw [if_neg (ne_of_isDigit c '[' hc (by decide)),
      if_neg (ne_of_isDigit c '{' hc (by decide)),
      if_neg (ne_of_isDigit c '"' hc (by decide)),
      if_neg (ne_of_isDigit c 't' hc (by decide)),
      if_neg (ne_of_isDigit c 'f' hc (by decide)),
      if_neg (ne_of_isDigit c 'n' hc (by decide)),
      if_neg (ne_of_isDigit c '-' hc (by decide))]
    rw [← List.cons_append, ← hct]
    rw [parseNat_natChars _ _ hrest]
    have h2 : ((i.toNat : Int)) = i := by omega
    simp only []
    rw [h2]

theorem parseStringBody_quote (x : List Char) :
    parseStringBody ('"' :: x) = some ([], x) := by
  rw [parseStringBody.eq_def]
  simp

theorem parseStringBody_key (k : List Char) (x : List Char)
    (hk : ∀ c ∈ k, c ≠ '"' ∧ c ≠ '\\' ∧ 32 ≤ c.toNat) :
    parseStringBody (k ++ '"' :: x) = some (k, x) := by
  induction k with
  | nil => simpa using parseStringBody_quote x
  | cons c t ih =>
    obtain ⟨h1, h2, h3⟩ := hk c (by simp)
    rw [List.cons_append, parseStringBody_cons_other c _ h1 h2 h3,
      ih (fun d hd => hk d (by simp [hd]))]
    rfl

theorem string_mk_toList (s : String) : String.mk s.toList = s := rfl

theorem parseVal_str (f : Nat) (s : String) (cs rest : List Char)
    (hcs : skipWs cs = escapeString s ++ rest) :
    parseVal (f + 1) cs = some (Json.str s, rest) := by
  have hcs2 : skipWs cs =
      '"' :: ((s.toList.map escapeChar).flatten ++ (['"'] ++ rest)) := by
    rw [hcs]
    simp [escapeString]
  simp only [parseVal]
  rw [hcs2]
  simp only [Char.reduceEq, reduceIte]
  rw [List.singleton_append, parseStringBody_escape]
  simp only []
  rw [string_mk_toList]

theorem noDigitHead_cons (c : Char) (x : List Char) (hc : c.isDigit = false) :
    noDigitHead (c :: x) := hc

theorem parseMembers_int_more (f : Nat) (key : List Char) (i : Int) (cs x : List Char)
    (hkey : ∀ c ∈ key, c ≠ '"' ∧ c ≠ '\\' ∧ 32 ≤ c.toNat)
    (hcs : skipWs cs = '"' :: (key ++ '"' :: ':' :: ' ' :: (intChars i ++ ',' :: x))) :
    parseMembers (f + 2) cs =
      (parseMembers (f + 1) x).map
        (fun p => ((String.mk key, Json.int i) :: p.1, p.2)) := by
  rw [parseMembers]
  rw [hcs]
  simp only []
  rw [parseStringBody_key key _ hkey]
  simp only []
  rw [skipWs_cons_not ':' _ (by decide)]
  simp only []
  rw [parseVal_int f i _ (',' :: x)
    (by rw [skipWs_sp]; exact skipWs_intChars i (',' :: x))
    (noDigitHead_cons ',' x (by decide))]
  simp only []
  rw [skipWs_cons_not ',' _ (by decide)]
  simp only []
  cases hm : parseMembers (f + 1) x with
  | none => rfl
  | some p =>
    obtain ⟨ms, r6⟩ := p
    rfl

theorem parseMembers_str_more (f : Nat) (key : List Char) (s : String) (cs x : List Char)
    (hkey : ∀ c ∈ key, c ≠ '"' ∧ c ≠ '\\' ∧ 32 ≤ c.toNat)
    (hcs : skipWs cs =
      '"' :: (key ++ '"' :: ':' :: ' ' :: (escapeString s ++ ',' :: x))) :
    parseMembers (f + 2) cs =
      (parseMembers (f + 1) x).map
        (fun p => ((String.mk key, Json.str s) :: p.1, p.2)) := by
  rw [parseMembers]
  rw [hcs]
  simp only []
  rw [parseStringBody_key key _ hkey]
  simp only []
  rw [skipWs_cons_not ':' _ (by decide)]
  simp only []
  rw [parseVal_str f s _ (',' :: x)
    (by
      rw [skipWs_sp]
      unfold escapeString
      rw [List.cons_append]
      exact skipWs_cons_not '"' _ (by decide))]
  simp only []
  rw [skipWs_cons_not ',' _ (by decide)]
  simp only []
  cases hm : parseMembers (f + 1) x with
  | none => rfl
  | some p =>
    obtain ⟨ms, r6⟩ := p
    rfl

theorem parseMembers_int_last (f : Nat) (key : List Char) (i : Int) (cs rest : List Char)
    (hkey : ∀ c ∈ key, c ≠ '"' ∧ c ≠ '\\' ∧ 32 ≤ c.toNat)
    (hcs : skipWs cs = '"' :: (key ++ '"' :: ':' :: ' ' ::
      (intChars i ++ '\n' :: ' ' :: ' ' :: '}' :: rest))) :
    parseMembers (f + 2) cs = some ([(String.mk key, Json.int i)], rest) := by
  rw [parseMembers]
  rw [hcs]
  simp only []
  rw [parseStringBody_key key _ hkey]
  simp only []
  rw [skipWs_cons_not ':' _ (by decide)]
  simp only []
  rw [parseVal_int f i _ ('\n' :: ' ' :: ' ' :: '}' :: rest)
    (by rw [skipWs_sp]; exact skipWs_intChars i _)
    (noDigitHead_cons '\n' _ (by decide))]
  simp only []
  rw [skipWs_nl, skipWs_sp, skipWs_sp, skipWs_cons_not '}' _ (by decide)]
  simp only []


theorem parseVal_record (f : Nat) (r : ServantRecord) (cs rest : List Char)
    (hcs : skipWs cs = dumpRecordChars r ++ rest) :
    parseVal (f + 6) cs = some (recordJson r, rest) := by
  have hcs2 : skipWs cs = '{' :: '\n' :: ' ' :: ' ' :: ' ' :: ' ' :: '"' :: 'i' :: 'd' :: '"' :: ':' :: ' ' :: (intChars r.id ++ ',' :: '\n' :: ' ' :: ' ' :: ' ' :: ' ' :: '"' :: 'n' :: 'a' :: 'm' :: 'e' :: '"' :: ':' :: ' ' :: (escapeString r.name ++ ',' :: '\n' :: ' ' :: ' ' :: ' ' :: ' ' :: '"' :: 'c' :: 'l' :: 'a' :: 's' :: 's' :: '"' :: ':' :: ' ' :: (escapeString r.cls ++ ',' :: '\n' :: ' ' :: ' ' :: ' ' :: ' ' :: '"' :: 'r' :: 'a' :: 'r' :: 'i' :: 't' :: 'y' :: '"' :: ':' :: ' ' :: (intChars r.rarity ++ '\n' :: ' ' :: ' ' :: '}' :: rest)))) := by
    rw [hcs, dumpRecordChars]
    simp [escapeString]
  simp only [parseVal]
  rw [hcs2]
  simp only [Char.reduceEq, reduceIte]
  rw [skipWs_nl, skipWs_sp, skipWs_sp, skipWs_sp, skipWs_sp,
    skipWs_cons_not '"' _ (by decide)]
  rw [show f + 5 = (f + 3) + 2 from rfl,
    parseMembers_int_more (f + 3) ['i', 'd'] r.id
      ('\n' :: ' ' :: ' ' :: ' ' :: ' ' :: '"' :: 'i' :: 'd' :: '"' :: ':' :: ' ' :: (intChars r.id ++ ',' :: '\n' :: ' ' :: ' ' :: ' ' :: ' ' :: '"' :: 'n' :: 'a' :: 'm' :: 'e' :: '"' :: ':' :: ' ' :: (escapeString r.name ++ ',' :: '\n' :: ' ' :: ' ' :: ' ' :: ' ' :: '"' :: 'c' :: 'l' :: 'a' :: 's' :: 's' :: '"' :: ':' :: ' ' :: (escapeString r.cls ++ ',' :: '\n' :: ' ' :: ' ' :: ' ' :: ' ' :: '"' :: 'r' :: 'a' :: 'r' :: 'i' :: 't' :: 'y' :: '"' :: ':' :: ' ' :: (intChars r.rarity ++ '\n' :: ' ' :: ' ' :: '}' :: rest)))))
      ('\n' :: ' ' :: ' ' :: ' ' :: ' ' :: '"' :: 'n' :: 'a' :: 'm' :: 'e' :: '"' :: ':' :: ' ' :: (escapeString r.name ++ ',' :: '\n' :: ' ' :: ' ' :: ' ' :: ' ' :: '"' :: 'c' :: 'l' :: 'a' :: 's' :: 's' :: '"' :: ':' :: ' ' :: (escapeString r.cls ++ ',' :: '\n' :: ' ' :: ' ' :: ' ' :: ' ' :: '"' :: 'r' :: 'a' :: 'r' :: 'i' :: 't' :: 'y' :: '"' :: ':' :: ' ' :: (intChars r.rarity ++ '\n' :: ' ' :: ' ' :: '}' :: rest)))) (by decide)
      (by
        rw [skipWs_nl, skipWs_sp, skipWs_sp, skipWs_sp, skipWs_sp,
          skipWs_cons_not '"' _ (by decide)]
        simp)]
  rw [show f + 3 + 1 = (f + 2) + 2 from rfl,
    parseMembers_str_more (f + 2) ['n', 'a', 'm', 'e'] r.name
      ('\n' :: ' ' :: ' ' :: ' ' :: ' ' :: '"' :: 'n' :: 'a' :: 'm' :: 'e' :: '"' :: ':' :: ' ' :: (escapeString r.name ++ ',' :: '\n' :: ' ' :: ' ' :: ' ' :: ' ' :: '"' :: 'c' :: 'l' :: 'a' :: 's' :: 's' :: '"' :: ':' :: ' ' :: (escapeString r.cls ++ ',' :: '\n' :: ' ' :: ' ' :: ' ' :: ' ' :: '"' :: 'r' :: 'a' :: 'r' :: 'i' :: 't' :: 'y' :: '"' :: ':' :: ' ' :: (intChars r.rarity ++ '\n' :: ' ' :: ' ' :: '}' :: rest))))
      ('\n' :: ' ' :: ' ' :: ' ' :: ' ' :: '"' :: 'c' :: 'l' :: 'a' :: 's' :: 's' :: '"' :: ':' :: ' ' :: (escapeString r.cls ++ ',' :: '\n' :: ' ' :: ' ' :: ' ' :: ' ' :: '"' :: 'r' :: 'a' :: 'r' :: 'i' :: 't' :: 'y' :: '"' :: ':' :: ' ' :: (intChars r.rarity ++ '\n' :: ' ' :: ' ' :: '}' :: rest))) (by decide)
      (by
        rw [skipWs_nl, skipWs_sp, skipWs_sp, skipWs_sp, skipWs_sp,
          skipWs_cons_not '"' _ (by decide)]
        simp)]
  rw [show f + 2 + 1 = (f + 1) + 2 from rfl,
    parseMembers_str_more (f + 1) ['c', 'l', 'a', 's', 's'] r.cls
      ('\n' :: ' ' :: ' ' :: ' ' :: ' ' :: '"' :: 'c' :: 'l' :: 'a' :: 's' :: 's' :: '"' :: ':' :: ' ' :: (escapeString r.cls ++ ',' :: '\n' :: ' ' :: ' ' :: ' ' :: ' ' :: '"' :: 'r' :: 'a' :: 'r' :: 'i' :: 't' :: 'y' :: '"' :: ':' :: ' ' :: (intChars r.rarity ++ '\n' :: ' ' :: ' ' :: '}' :: rest)))
      ('\n' :: ' ' :: ' ' :: ' ' :: ' ' :: '"' :: 'r' :: 'a' :: 'r' :: 'i' :: 't' :: 'y' :: '"' :: ':' :: ' ' :: (intChars r.rarity ++ '\n' :: ' ' :: ' ' :: '}' :: rest)) (by decide)
      (by
        rw [skipWs_nl, skipWs_sp, skipWs_sp, skipWs_sp, skipWs_sp,
          skipWs_cons_not '"' _ (by decide)]
        simp)]
  rw [show f + 1 + 1 = f + 2 from rfl,
    parseMembers_int_last f ['r', 'a', 'r', 'i', 't', 'y'] r.rarity
      ('\n' :: ' ' :: ' ' :: ' ' :: ' ' :: '"' :: 'r' :: 'a' :: 'r' :: 'i' :: 't' :: 'y' :: '"' :: ':' :: ' ' :: (intChars r.rarity ++ '\n' :: ' ' :: ' ' :: '}' :: rest))
      rest (by decide)
      (by
        rw [skipWs_nl, skipWs_sp, skipWs_sp, skipWs_sp, skipWs_sp,
          skipWs_cons_not '"' _ (by decide)]
        simp)]
  simp [recordJson]

theorem skipWs_dumpRecord (r : ServantRecord) (x : List Char) :
    skipWs (dumpRecordChars r ++ x) = dumpRecordChars r ++ x := by
  rw [dumpRecordChars]
  simp [skipWs_cons_not]

theorem parseElems_records (rs : List ServantRecord) (r : ServantRecord) (f : Nat)
    (rest : List Char) :
    parseElems (f + 7 * rs.length + 7)
      ('\n' :: ' ' :: ' ' :: (dumpRecordChars r ++
        ((rs.map (fun q => ",\n  ".toList ++ dumpRecordChars q)).flatten ++
          ('\n' :: ']' :: rest)))) =
      some ((r :: rs).map recordJson, rest) := by
  induction rs generalizing r f rest with
  | nil =>
    rw [show f + 7 * ([] : List ServantRecord).length + 7 = (f + 6) + 1 from by simp]
    rw [parseElems]
    rw [parseVal_record f r _ ('\n' :: ']' :: rest)
      (by
        rw [skipWs_nl, skipWs_sp, skipWs_sp]
        simpa using skipWs_dumpRecord r ('\n' :: ']' :: rest))]
    simp only []
    rw [skipWs_nl, skipWs_cons_not ']' _ (by decide)]
    simp only []
    rfl
  | cons q rs ih =>
    rw [show f + 7 * ((q :: rs) : List ServantRecord).length + 7 =
      (f + 7 * rs.length + 13) + 1 from by simp [List.length_cons]; ring]
    rw [parseElems]
    rw [show f + 7 * rs.length + 13 = (f + 7 * rs.length + 7) + 6 from by ring]
    rw [parseVal_record (f + 7 * rs.length + 7) r _
      (',' :: '\n' :: ' ' :: ' ' :: (dumpRecordChars q ++
        ((rs.map (fun t => ",\n  ".toList ++ dumpRecordChars t)).flatten ++
          ('\n' :: ']' :: rest))))
      (by
        rw [skipWs_nl, skipWs_sp, skipWs_sp]
        rw [show ((((q :: rs) : List ServantRecord).map
            (fun t => ",\n  ".toList ++ dumpRecordChars t)).flatten ++
            ('\n' :: ']' :: rest)) =
          (',' :: '\n' :: ' ' :: ' ' :: (dumpRecordChars q ++
            ((rs.map (fun t => ",\n  ".toList ++ dumpRecordChars t)).flatten ++
              ('\n' :: ']' :: rest)))) from by simp]
        exact skipWs_dumpRecord r _)]
    simp only []
    rw [skipWs_cons_not ',' _ (by decide)]
    simp only []
    rw [show (f + 7 * rs.length + 7) + 6 = (f + 6) + 7 * rs.length + 7 from by ring]
    rw [ih q (f + 6) rest]
    simp

theorem parseVal_dataset (f : Nat) (D : List ServantRecord) (cs rest : List Char)
    (hcs : skipWs cs = dumpDatasetChars D ++ rest) :
    parseVal (f + 7 * D.length + 1) cs = some (datasetJson D, rest) := by
  cases D with
  | nil =>
    have hcs2 : skipWs cs = '[' :: ']' :: rest := by
      rw [hcs]
      simp [dumpDatasetChars]
    rw [show f + 7 * ([] : List ServantRecord).length + 1 = f + 1 from by simp]
    simp only [parseVal]
    rw [hcs2]
    simp only [Char.reduceEq, reduceIte]
    rw [skipWs_cons_not ']' _ (by decide)]
    simp only []
    rfl
  | cons r rs =>
    have hcs2 : skipWs cs = '[' :: ('\n' :: ' ' :: ' ' :: (dumpRecordChars r ++
        ((rs.map (fun q => ",\n  ".toList ++ dumpRecordChars q)).flatten ++
          ('\n' :: ']' :: rest)))) := by
      rw [hcs]
      simp [dumpDatasetChars]
    rw [show f + 7 * ((r :: rs) : List ServantRecord).length + 1 =
      (f + 7 * rs.length + 7) + 1 from by simp [List.length_cons]; ring]
    simp only [parseVal]
    rw [hcs2]
    simp only [Char.reduceEq, reduceIte]
    have hT : skipWs ('\n' :: ' ' :: ' ' :: (dumpRecordChars r ++
        ((rs.map (fun q => ",\n  ".toList ++ dumpRecordChars q)).flatten ++
          ('\n' :: ']' :: rest)))) = '{' :: '\n' :: ' ' :: ' ' :: ' ' :: ' ' :: '"' :: 'i' :: 'd' :: '"' :: ':' :: ' ' :: (intChars r.id ++ ',' :: '\n' :: ' ' :: ' ' :: ' ' :: ' ' :: '"' :: 'n' :: 'a' :: 'm' :: 'e' :: '"' :: ':' :: ' ' :: (escapeString r.name ++ ',' :: '\n' :: ' ' :: ' ' :: ' ' :: ' ' :: '"' :: 'c' :: 'l' :: 'a' :: 's' :: 's' :: '"' :: ':' :: ' ' :: (escapeString r.cls ++ ',' :: '\n' :: ' ' :: ' ' :: ' ' :: ' ' :: '"' :: 'r' :: 'a' :: 'r' :: 'i' :: 't' :: 'y' :: '"' :: ':' :: ' ' :: (intChars r.rarity ++ '\n' :: ' ' :: ' ' :: '}' :: ((rs.map (fun q => ",\n  ".toList ++ dumpRecordChars q)).flatten ++ ('\n' :: ']' :: rest)))))) := by
      rw [skipWs_nl, skipWs_sp, skipWs_sp, skipWs_dumpRecord, dumpRecordChars]
      simp [escapeString]
    rw [hT]
    rw [parseElems_records rs r f rest]
    rfl

theorem dumpRecordChars_length_ge (r : ServantRecord) :
    12 ≤ (dumpRecordChars r).length := by
  simp [dumpRecordChars]

theorem flatten_length_ge (rs : List ServantRecord) :
    7 * rs.length ≤
      ((rs.map (fun q => ",\n  ".toList ++ dumpRecordChars q)).flatten).length := by
  induction rs with
  | nil => simp
  | cons q rs ih =>
    simp only [List.map_cons, List.flatten_cons, List.length_append, List.length_cons]
    have h1 := dumpRecordChars_length_ge q
    have h2 : (",\n  ".toList).length = 4 := rfl
    omega

theorem dumpDataset_length_ge (D : List ServantRecord) :
    7 * D.length ≤ (dumpDatasetChars D).length := by
  cases D with
  | nil => simp [dumpDatasetChars]
  | cons r rs =>
    simp only [dumpDatasetChars, List.length_append, List.length_cons]
    have h1 := dumpRecordChars_length_ge r
    have h2 := flatten_length_ge rs
    have h3 : ("[\n  ".toList).length = 4 := rfl
    have h4 : ("\n]".toList).length = 2 := rfl
    omega

theorem skipWs_dumpDataset (D : List ServantRecord) :
    skipWs (dumpDatasetChars D) = dumpDatasetChars D := by
  cases D with
  | nil => rfl
  | cons r rs =>
    simp [dumpDatasetChars, skipWs_cons_not]

theorem parseJson_dumpDataset (D : List ServantRecord) :
    parseJson (dumpDataset D) = some (datasetJson D) := by
  unfold parseJson dumpDataset
  have hb : 7 * D.length ≤ (dumpDatasetChars D).length := dumpDataset_length_ge D
  have heq : (String.mk (dumpDatasetChars D)).length + 1 =
      ((dumpDatasetChars D).length - 7 * D.length) + 7 * D.length + 1 := by
    have h0 : (String.mk (dumpDatasetChars D)).length = (dumpDatasetChars D).length :=
      rfl
    omega
  rw [heq]
  rw [parseVal_dataset ((dumpDatasetChars D).length - 7 * D.length) D _ []
    (by
      have h1 : (String.mk (dumpDatasetChars D)).toList = dumpDatasetChars D := rfl
      rw [h1, List.append_nil]
      exact skipWs_dumpDataset D)]
  simp [skipWs_nil]

theorem recordOfJson_recordJson (r : ServantRecord) :
    recordOfJson (recordJson r) = some r := rfl

theorem recordsOfJson_map (D : List ServantRecord) :
    recordsOfJson (D.map recordJson) = some D := by
  induction D with
  | nil => rfl
  | cons r rs ih =>
    simp [recordsOfJson, recordOfJson_recordJson, ih]

theorem jsonToDataset_datasetJson (D : List ServantRecord) :
    jsonToDataset (datasetJson D) = some D := by
  simp only [datasetJson, jsonToDataset]
  exact recordsOfJson_map D

/-- C3: the dataset-store round trip: the file written by a successful
`save_to_json` parses back (via `load_servant_data`'s `json.load`) to
exactly the dataset's JSON value, and reading its fields recovers `D`
field-for-field, order preserved. -/
theorem C3_load_save_roundtrip (D : List ServantRecord) :
    saveToJson true D = Except.ok (dumpDataset D) ∧
    loadServantData (some (dumpDataset D)) = datasetJson D ∧
    jsonToDataset (loadServantData (some (dumpDataset D))) = some D := by
  have h1 : loadServantData (some (dumpDataset D)) = datasetJson D := by
    simp only [loadServantData]
    rw [parseJson_dumpDataset D]
  exact ⟨rfl, h1, by rw [h1]; exact jsonToDataset_datasetJson D⟩

/-- C4: `load_servant_data` returns the empty dataset when the file is
absent (`FileNotFoundError`) and when its contents do not decode
(`JSONDecodeError`); being a total function, it never raises. -/
theorem C4_load_missing_or_corrupt (s : String) (h : parseJson s = none) :
    loadServantData none = Json.arr [] ∧ loadServantData (some s) = Json.arr [] := by
  refine ⟨rfl, ?_⟩
  simp only [loadServantData]
  rw [h]

theorem C4_load_missing_or_corrupt_witness :
    loadServantData none = Json.arr [] ∧
    loadServantData (some "\x7b") = Json.arr [] :=
  C4_load_missing_or_corrupt "\x7b" (by rfl)
